import Mathlib

/-!
Shallow embedding of `livekit-agents/livekit/agents/interrupt_filter.py`
(`InterruptFilter`) and proofs about it.

Modelling choices:
* Strings are Lean `String`s; `str.lower()` is modelled by `Char.toLower`
  character-wise (the source only ever matches ASCII `[a-zA-Z']`, and
  `Char.toLower` agrees with Python on ASCII), and `str.strip()` by dropping
  the ASCII whitespace characters from both ends.
* `re.findall(r"[a-zA-Z']+", text)` is modelled by `splitRuns`, which returns
  the maximal runs of characters in the class `[a-zA-Z']`.
* The mutable object state of `InterruptFilter` is a `FilterState` record;
  each method is a pure function from state to state.  The `threading.Timer`
  handle is modelled by the flag `timer_armed`; the timer firing is the
  explicit transition `_on_vad_timeout_internal`, which the environment may
  apply whenever the timer is armed.
* Calls of `self._maybe_callback(...)` are recorded in an `Emit` list returned
  alongside the new state; the callback body itself (which may raise) is
  modelled as a function into `Except` and the `try/except` of
  `_maybe_callback` as a `match` discarding the error.
-/

namespace InterruptFilterModel

/-- The characters Python's `str.strip()` removes (ASCII whitespace). -/
def isPySpace (c : Char) : Bool :=
  c = ' ' || c = '\t' || c = '\n' || c = '\r' || c = '\x0b' || c = '\x0c'

/-- Drop ASCII whitespace from both ends of a character list (`str.strip()`). -/
def stripList (l : List Char) : List Char :=
  (((l.dropWhile isPySpace).reverse.dropWhile isPySpace)).reverse

/-- `text.strip()` on strings. -/
def pyStrip (s : String) : String := String.mk (stripList s.toList)

/-- `text.lower()` on strings (ASCII behaviour). -/
def pyLower (s : String) : String := String.mk (s.toList.map Char.toLower)

/-- Character class of the tokenizing regex `[a-zA-Z']`. -/
def tokClass (c : Char) : Bool := c.isAlpha || c = '\''

/-- Accumulator-based splitting of a character list into maximal runs of
characters satisfying `p` (the semantics of `re.findall` with a
single-class regex). `acc` holds the current run, reversed. -/
def splitRunsAux (p : Char → Bool) : List Char → List Char → List (List Char)
  | [], acc => if acc.isEmpty then [] else [acc.reverse]
  | c :: cs, acc =>
    if p c then splitRunsAux p cs (c :: acc)
    else if acc.isEmpty then splitRunsAux p cs []
    else acc.reverse :: splitRunsAux p cs []

/-- Maximal runs of characters satisfying `p`. -/
def splitRuns (p : Char → Bool) (l : List Char) : List (List Char) :=
  splitRunsAux p l []

/-- `_norm_tokens(text)`: `if not text: return []`, else lower-case, strip,
and return the maximal `[a-zA-Z']` runs. -/
def _norm_tokens (text : String) : List String :=
  if text = "" then []
  else (splitRuns tokClass (pyStrip (pyLower text)).toList).map String.mk

/-- `_DEFAULT_IGNORE` from the source. -/
def _DEFAULT_IGNORE : List String :=
  ["yeah", "ok", "hmm", "right", "uh-huh", "uh", "mm", "mm-hmm", "uh huh", "okay"]

/-- `_DEFAULT_COMMANDS` from the source. -/
def _DEFAULT_COMMANDS : List String :=
  ["stop", "wait", "no", "pause", "hold", "start", "cancel", "hey", "what", "help", "listen"]

/-- One invocation of `self._maybe_callback(decision, reason, stt_text)`. -/
structure Emit where
  decision : String
  reason : String
  text : String
deriving Repr, DecidableEq

/-- The mutable state of an `InterruptFilter` object. -/
structure FilterState where
  ignore_words : List String
  command_words : List String
  validation_window_ms : Int
  is_speaking : Bool
  vad_pending : Bool
  stt_buffer : String
  timer_armed : Bool
deriving Repr, DecidableEq

/-- `InterruptFilter.__init__`: lower-cases the word lists, clamps the
validation window to at least 50 ms, and starts silent with no episode. -/
def InterruptFilter_init (ignore : Option (List String))
    (cmd : Option (List String)) (validation_window_ms : Int) : FilterState :=
  { ignore_words := (ignore.getD _DEFAULT_IGNORE).map pyLower
    command_words := (cmd.getD _DEFAULT_COMMANDS).map pyLower
    validation_window_ms := max 50 validation_window_ms
    is_speaking := false
    vad_pending := false
    stt_buffer := ""
    timer_armed := false }

/-- A filter constructed with all defaults. -/
def defaultFilter : FilterState := InterruptFilter_init none none 250

/-- `set_speaking(speaking)`. -/
def set_speaking (s : FilterState) (speaking : Bool) : FilterState :=
  { s with is_speaking := speaking }

/-- `on_vad_start()`: marks pending, clears the buffer, cancels any timer
and arms a fresh one. Emits nothing. -/
def on_vad_start (s : FilterState) : FilterState × List Emit :=
  ({ s with vad_pending := true, stt_buffer := "", timer_armed := true }, [])

/-- `on_stt_partial(text)`: a no-op when `text is None`; otherwise overwrites
the buffer with the stripped text. Emits nothing. -/
def on_stt_partial (s : FilterState) (text : Option String) : FilterState × List Emit :=
  match text with
  | none => (s, [])
  | some t => ({ s with stt_buffer := pyStrip t }, [])

/-- `on_stt_final(text)`: cancels the timer, clears `pending`, stores the
stripped text as the buffer, classifies it and emits exactly one decision,
which is also returned synchronously. -/
def on_stt_final (s : FilterState) (textOpt : Option String) :
    FilterState × String × List Emit :=
  let text := textOpt.getD ""
  let s1 : FilterState :=
    { s with timer_armed := false, vad_pending := false, stt_buffer := pyStrip text }
  let tokens := _norm_tokens s1.stt_buffer
  if tokens.isEmpty then
    let decision := if s1.is_speaking then "IGNORE" else "PASS"
    (s1, decision, [⟨decision, "empty_transcription", text⟩])
  else
    match tokens.find? (fun t => s1.command_words.contains t) with
    | some t => (s1, "INTERRUPT", [⟨"INTERRUPT", "command_word:" ++ t, text⟩])
    | none =>
      let all_ignore := tokens.all (fun t => s1.ignore_words.contains t)
      if s1.is_speaking then
        let decision := if all_ignore then "IGNORE" else "INTERRUPT"
        let reason := if all_ignore then "all_ignore" else "contains_non_ignore"
        (s1, decision, [⟨decision, reason, text⟩])
      else
        (s1, "PASS", [⟨"PASS", "silent_mode_pass", text⟩])

/-- `_on_vad_timeout_internal()`: drops the timer handle, is a no-op if the
episode is no longer pending, and otherwise classifies the buffered text,
clears `pending` and emits exactly one decision. -/
def _on_vad_timeout_internal (s : FilterState) : FilterState × List Emit :=
  let s1 : FilterState := { s with timer_armed := false }
  if s1.vad_pending = false then (s1, [])
  else
    let tokens := _norm_tokens s1.stt_buffer
    if tokens.isEmpty then
      let decision := if s1.is_speaking then "IGNORE" else "PASS"
      ({ s1 with vad_pending := false },
        [⟨decision, "timeout_empty_partial", s1.stt_buffer⟩])
    else
      match tokens.find? (fun t => s1.command_words.contains t) with
      | some t =>
        ({ s1 with vad_pending := false },
          [⟨"INTERRUPT", "partial_command:" ++ t, s1.stt_buffer⟩])
      | none =>
        let all_ignore := tokens.all (fun t => s1.ignore_words.contains t)
        if s1.is_speaking then
          ({ s1 with vad_pending := false },
            [⟨if all_ignore then "IGNORE" else "INTERRUPT",
              if all_ignore then "timeout_all_ignore" else "timeout_contains_non_ignore",
              s1.stt_buffer⟩])
        else
          ({ s1 with vad_pending := false },
            [⟨"PASS", "timeout_silent_pass", s1.stt_buffer⟩])

/-- `on_vad_cancel()`: cancels the timer and clears pending and buffer,
emitting nothing. -/
def on_vad_cancel (s : FilterState) : FilterState × List Emit :=
  ({ s with timer_armed := false, vad_pending := false, stt_buffer := "" }, [])

/-- Behaviour of a registered `on_decision` callback: it may return normally
or raise (`Except.error`). -/
def CallbackBehavior : Type := String → String → String → Except String Unit

/-- `_maybe_callback(decision, reason, stt_text)`: invokes the callback if
present and swallows any exception (`try/except: pass`). -/
def _maybe_callback (cb : Option CallbackBehavior)
    (decision reason text : String) : Unit :=
  match cb with
  | none => ()
  | some f =>
    match f decision reason text with
    | Except.ok _ => ()
    | Except.error _ => ()

/-- `on_stt_final` together with the dispatch of its emitted decisions to the
callback; the returned value is the (state, synchronous decision) pair that
the caller observes. -/
def run_on_stt_final (cb : Option CallbackBehavior) (s : FilterState)
    (textOpt : Option String) : FilterState × String :=
  let r := on_stt_final s textOpt
  let _u := (r.2.2).foldl (fun _ e => _maybe_callback cb e.decision e.reason e.text) ()
  (r.1, r.2.1)

/-- The timeout transition together with the dispatch of its emitted
decisions to the callback. -/
def run_timeout (cb : Option CallbackBehavior) (s : FilterState) : FilterState :=
  let r := _on_vad_timeout_internal s
  let _u := (r.2).foldl (fun _ e => _maybe_callback cb e.decision e.reason e.text) ()
  r.1

/-! ### Lemmas about the tokenizer -/

theorem splitRuns_cons_neg (p : Char → Bool) (c : Char) (h : p c = false)
    (l : List Char) : splitRuns p (c :: l) = splitRuns p l := by
  simp [splitRuns, splitRunsAux, h]

theorem splitRunsAux_snoc_neg (p : Char → Bool) (c : Char) (h : p c = false) :
    ∀ (l acc : List Char), splitRunsAux p (l ++ [c]) acc = splitRunsAux p l acc := by
  intro l
  induction l with
  | nil =>
    intro acc
    by_cases ha : acc.isEmpty <;> simp [splitRunsAux, h, ha]
  | cons d ds ih =>
    intro acc
    by_cases hd : p d <;> by_cases ha : acc.isEmpty <;>
      simp [splitRunsAux, hd, ha, ih]

theorem splitRuns_append_left_neg (p : Char → Bool) :
    ∀ (A l : List Char), (∀ c ∈ A, p c = false) →
      splitRuns p (A ++ l) = splitRuns p l := by
  intro A
  induction A with
  | nil => intro l _; rfl
  | cons c cs ih =>
    intro l h
    rw [List.cons_append, splitRuns_cons_neg p c (h c (by simp))]
    exact ih l (fun d hd => h d (by simp [hd]))

theorem splitRuns_append_right_neg (p : Char → Bool) :
    ∀ (B l : List Char), (∀ c ∈ B, p c = false) →
      splitRuns p (l ++ B) = splitRuns p l := by
  intro B
  induction B with
  | nil => intro l _; simp
  | cons c cs ih =>
    intro l h
    have : l ++ c :: cs = (l ++ [c]) ++ cs := by simp
    rw [this, ih (l ++ [c]) (fun d hd => h d (by simp [hd]))]
    exact splitRunsAux_snoc_neg p c (h c (by simp)) l []

theorem splitRuns_eq_nil (p : Char → Bool) :
    ∀ l : List Char, (∀ c ∈ l, p c = false) → splitRuns p l = [] := by
  intro l
  induction l with
  | nil => intro _; rfl
  | cons c cs ih =>
    intro h
    rw [splitRuns_cons_neg p c (h c (by simp))]
    exact ih (fun d hd => h d (by simp [hd]))

theorem splitRunsAux_sound (p : Char → Bool) :
    ∀ (l acc : List Char), (∀ c ∈ acc, p c = true) →
      ∀ r ∈ splitRunsAux p l acc, r ≠ [] ∧ ∀ c ∈ r, p c = true := by
  intro l
  induction l with
  | nil =>
    intro acc hacc r hr
    by_cases ha : acc.isEmpty
    · simp [splitRunsAux, ha] at hr
    · simp [splitRunsAux, ha] at hr
      subst hr
      refine ⟨?_, ?_⟩
      · simp only [ne_eq, List.reverse_eq_nil_iff]
        exact fun h => ha (by simp [h])
      · intro c hc
        exact hacc c (List.mem_reverse.mp hc)
  | cons c cs ih =>
    intro acc hacc r hr
    simp only [splitRunsAux] at hr
    by_cases hc : p c
    · rw [if_pos hc] at hr
      refine ih (c :: acc) ?_ r hr
      intro d hd
      rcases List.mem_cons.mp hd with rfl | hd
      · exact hc
      · exact hacc d hd
    · rw [if_neg hc] at hr
      by_cases ha : acc.isEmpty
      · rw [if_pos ha] at hr
        exact ih [] (by simp) r hr
      · rw [if_neg ha] at hr
        rcases List.mem_cons.mp hr with rfl | hr
        · refine ⟨?_, ?_⟩
          · simp only [ne_eq, List.reverse_eq_nil_iff]
            exact fun h => ha (by simp [h])
          · intro d hd
            exact hacc d (List.mem_reverse.mp hd)
        · exact ih [] (by simp) r hr

theorem stripList_decomp (l : List Char) :
    ∃ A B, l = A ++ (stripList l ++ B)
      ∧ (∀ c ∈ A, isPySpace c = true) ∧ (∀ c ∈ B, isPySpace c = true) := by
  refine ⟨l.takeWhile isPySpace,
    ((l.dropWhile isPySpace).reverse.takeWhile isPySpace).reverse, ?_, ?_, ?_⟩
  · have h1 : l.takeWhile isPySpace ++ l.dropWhile isPySpace = l :=
      List.takeWhile_append_dropWhile isPySpace l
    have h2 :
        (l.dropWhile isPySpace).reverse.takeWhile isPySpace
          ++ (l.dropWhile isPySpace).reverse.dropWhile isPySpace
          = (l.dropWhile isPySpace).reverse :=
      List.takeWhile_append_dropWhile isPySpace (l.dropWhile isPySpace).reverse
    have h3 := congrArg List.reverse h2
    rw [List.reverse_append, List.reverse_reverse] at h3
    have hm : stripList l
          ++ ((l.dropWhile isPySpace).reverse.takeWhile isPySpace).reverse
        = l.dropWhile isPySpace := h3
    rw [hm, h1]
  · intro c hc
    exact List.mem_takeWhile_imp hc
  · intro c hc
    exact List.mem_takeWhile_imp (List.mem_reverse.mp hc)

theorem splitRuns_stripList (p : Char → Bool)
    (hp : ∀ c, isPySpace c = true → p c = false) (l : List Char) :
    splitRuns p (stripList l) = splitRuns p l := by
  obtain ⟨A, B, hl, hA, hB⟩ := stripList_decomp l
  conv_rhs => rw [hl]
  rw [splitRuns_append_left_neg p A _ (fun c hc => hp c (hA c hc))]
  rw [splitRuns_append_right_neg p B _ (fun c hc => hp c (hB c hc))]

theorem isPySpace_cases (c : Char) (h : isPySpace c = true) :
    c = ' ' ∨ c = '\t' ∨ c = '\n' ∨ c = '\r' ∨ c = '\x0b' ∨ c = '\x0c' := by
  simpa [isPySpace, or_assoc] using h

theorem isPySpace_not_tokClass (c : Char) (h : isPySpace c = true) :
    tokClass c = false := by
  rcases isPySpace_cases c h with rfl | rfl | rfl | rfl | rfl | rfl <;> decide

theorem tokClass_toLower_isPySpace (c : Char) (h : isPySpace c = true) :
    tokClass (Char.toLower c) = false := by
  rcases isPySpace_cases c h with rfl | rfl | rfl | rfl | rfl | rfl <;> decide

theorem _norm_tokens_eq (s : String) :
    _norm_tokens s
      = (splitRuns tokClass (stripList (s.toList.map Char.toLower))).map String.mk := by
  by_cases h : s = ""
  · subst h; decide
  · simp only [_norm_tokens, if_neg h]
    rfl

theorem _norm_tokens_pyStrip (s : String) :
    _norm_tokens (pyStrip s) = _norm_tokens s := by
  rw [_norm_tokens_eq, _norm_tokens_eq]
  have htl : (pyStrip s).toList = stripList s.toList := rfl
  rw [htl, splitRuns_stripList _ isPySpace_not_tokClass,
    splitRuns_stripList _ isPySpace_not_tokClass]
  obtain ⟨A, B, hl, hA, hB⟩ := stripList_decomp s.toList
  have hA' : ∀ c ∈ A.map Char.toLower, tokClass c = false := by
    intro c hc
    obtain ⟨a, ha, rfl⟩ := List.mem_map.mp hc
    exact tokClass_toLower_isPySpace a (hA a ha)
  have hB' : ∀ c ∈ B.map Char.toLower, tokClass c = false := by
    intro c hc
    obtain ⟨b, hb, rfl⟩ := List.mem_map.mp hc
    exact tokClass_toLower_isPySpace b (hB b hb)
  conv_rhs => rw [hl]
  rw [List.map_append, List.map_append]
  rw [splitRuns_append_left_neg tokClass (A.map Char.toLower) _ hA']
  rw [splitRuns_append_right_neg tokClass (B.map Char.toLower) _ hB']

/-! ### Helper lemmas about the engine operations -/

theorem on_stt_final_fst (s : FilterState) (t : Option String) :
    (on_stt_final s t).1
      = { s with timer_armed := false, vad_pending := false,
                 stt_buffer := pyStrip (t.getD "") } := by
  simp only [on_stt_final]
  split
  · rfl
  · split
    · rfl
    · split <;> rfl

theorem timeout_fst (s : FilterState) :
    (_on_vad_timeout_internal s).1
      = { s with timer_armed := false, vad_pending := false } := by
  obtain ⟨ig, cw, vw, sp, vp, sb, ta⟩ := s
  simp only [_on_vad_timeout_internal]
  split
  · next h => simp_all
  · split
    · rfl
    · split
      · rfl
      · split <;> rfl

theorem timeout_not_pending (s : FilterState) (h : s.vad_pending = false) :
    _on_vad_timeout_internal s = ({ s with timer_armed := false }, []) := by
  simp only [_on_vad_timeout_internal]
  split
  · rfl
  · next hne => exact absurd h (by simpa using hne)

theorem on_stt_final_emit (s : FilterState) (t : Option String) :
    ∃ r, (on_stt_final s t).2.2
      = [⟨(on_stt_final s t).2.1, r, t.getD ""⟩] := by
  simp only [on_stt_final]
  split
  · exact ⟨"empty_transcription", rfl⟩
  · split
    · exact ⟨_, rfl⟩
    · split
      · exact ⟨_, rfl⟩
      · exact ⟨"silent_mode_pass", rfl⟩

theorem on_stt_final_decision_cases (s : FilterState) (t : Option String) :
    (on_stt_final s t).2.1 = "IGNORE" ∨ (on_stt_final s t).2.1 = "INTERRUPT"
      ∨ (on_stt_final s t).2.1 = "PASS" := by
  simp only [on_stt_final]
  split
  · split
    · exact Or.inl rfl
    · exact Or.inr (Or.inr rfl)
  · split
    · exact Or.inr (Or.inl rfl)
    · split
      · split
        · exact Or.inl rfl
        · exact Or.inr (Or.inl rfl)
      · exact Or.inr (Or.inr rfl)

theorem on_stt_final_command (s : FilterState) (t : Option String) (w : String)
    (hw : (_norm_tokens (pyStrip (t.getD ""))).find?
            (fun x => s.command_words.contains x) = some w) :
    (on_stt_final s t).2.1 = "INTERRUPT"
      ∧ (on_stt_final s t).2.2
          = [⟨"INTERRUPT", "command_word:" ++ w, t.getD ""⟩] := by
  have hne : (_norm_tokens (pyStrip (t.getD ""))) ≠ [] :=
    List.ne_nil_of_mem (List.mem_of_find?_eq_some hw)
  simp only [on_stt_final]
  rw [if_neg (by simpa [List.isEmpty_iff] using hne), hw]
  exact ⟨rfl, rfl⟩

theorem timeout_command (s : FilterState) (w : String)
    (hp : s.vad_pending = true)
    (hw : (_norm_tokens s.stt_buffer).find?
            (fun x => s.command_words.contains x) = some w) :
    (_on_vad_timeout_internal s).2
      = [⟨"INTERRUPT", "partial_command:" ++ w, s.stt_buffer⟩] := by
  have hne : (_norm_tokens s.stt_buffer) ≠ [] :=
    List.ne_nil_of_mem (List.mem_of_find?_eq_some hw)
  simp only [_on_vad_timeout_internal]
  rw [if_neg (by simp [hp])]
  rw [if_neg (by simpa [List.isEmpty_iff] using hne), hw]

theorem on_stt_final_pass_iff (s : FilterState) (t : Option String) :
    (on_stt_final s t).2.1 = "PASS"
      ↔ (s.is_speaking = false
          ∧ ∀ w ∈ _norm_tokens (pyStrip (t.getD "")),
              s.command_words.contains w = false) := by
  simp only [on_stt_final]
  split
  · next hE =>
    have hnil : _norm_tokens (pyStrip (t.getD "")) = [] := List.isEmpty_iff.mp hE
    split
    · next hS => simp [hS, hnil]
    · next hS => simp [hnil, Bool.not_eq_true] at hS ⊢; exact hS
  · split
    · next w hw =>
      have hmem := List.mem_of_find?_eq_some hw
      have hpw : s.command_words.contains w = true := List.find?_some hw
      constructor
      · intro h; simp at h
      · rintro ⟨-, hall⟩
        rw [hall w hmem] at hpw
        exact Bool.noConfusion hpw
    · next hw =>
      have hall : ∀ x ∈ _norm_tokens (pyStrip (t.getD "")),
          s.command_words.contains x = false := by
        intro x hx
        have := List.find?_eq_none.mp hw x hx
        simpa using this
      split
      · next hS =>
        split
        · constructor
          · intro h; simp at h
          · rintro ⟨hSf, -⟩; rw [hS] at hSf; exact Bool.noConfusion hSf
        · constructor
          · intro h; simp at h
          · rintro ⟨hSf, -⟩; rw [hS] at hSf; exact Bool.noConfusion hSf
      · next hS =>
        simp only [Bool.not_eq_true] at hS
        constructor
        · intro _; exact ⟨hS, hall⟩
        · intro _; rfl

theorem timeout_pass_iff (s : FilterState) (hp : s.vad_pending = true) :
    ∃ e, (_on_vad_timeout_internal s).2 = [e]
      ∧ (e.decision = "PASS"
          ↔ (s.is_speaking = false
              ∧ ∀ w ∈ _norm_tokens s.stt_buffer,
                  s.command_words.contains w = false)) := by
  simp only [_on_vad_timeout_internal]
  rw [if_neg (by simp [hp])]
  split
  · next hE =>
    have hnil : _norm_tokens s.stt_buffer = [] := List.isEmpty_iff.mp hE
    refine ⟨_, rfl, ?_⟩
    split
    · next hS => simp [hS, hnil]
    · next hS => simp [hnil, Bool.not_eq_true] at hS ⊢; exact hS
  · split
    · next w hw =>
      have hmem := List.mem_of_find?_eq_some hw
      have hpw : s.command_words.contains w = true := List.find?_some hw
      refine ⟨_, rfl, ?_⟩
      constructor
      · intro h; simp at h
      · rintro ⟨-, hall⟩
        rw [hall w hmem] at hpw
        exact Bool.noConfusion hpw
    · next hw =>
      have hall : ∀ x ∈ _norm_tokens s.stt_buffer,
          s.command_words.contains x = false := by
        intro x hx
        have := List.find?_eq_none.mp hw x hx
        simpa using this
      split
      · next hS =>
        refine ⟨_, rfl, ?_⟩
        constructor
        · intro h
          split at h
          · simp at h
          · simp at h
        · rintro ⟨hSf, -⟩; rw [hS] at hSf; exact Bool.noConfusion hSf
      · next hS =>
        simp only [Bool.not_eq_true] at hS
        refine ⟨_, rfl, ?_⟩
        constructor
        · intro _; exact ⟨hS, hall⟩
        · intro _; rfl

theorem set_timer_false_eq (X : FilterState) (h : X.timer_armed = false) :
    { X with timer_armed := false } = X := by
  cases X
  simp_all

theorem toLower_eq_of_not_alpha (c : Char) (h : c.isAlpha = false) :
    Char.toLower c = c := by
  have hUp : c.isUpper = false := by
    rcases Bool.or_eq_false_iff.mp (by simpa [Char.isAlpha] using h) with ⟨h1, _⟩
    exact h1
  rw [Char.toLower]
  rw [if_neg]
  intro hc
  obtain ⟨h65, h90⟩ := hc
  rw [Char.isUpper] at hUp
  have hb := Bool.and_eq_false_iff.mp hUp
  have e65 : (65 : UInt32).toBitVec.toNat = 65 := rfl
  have e90 : (90 : UInt32).toBitVec.toNat = 90 := rfl
  have hv65 : (65 : UInt32) ≤ c.val := by
    rw [UInt32.le_def, BitVec.le_def, e65]
    exact h65
  have hv90 : c.val ≤ (90 : UInt32) := by
    rw [UInt32.le_def, BitVec.le_def, e90]
    exact h90
  rcases hb with hb | hb
  · simp [GE.ge, hv65] at hb
  · simp [hv90] at hb

theorem mem_of_mem_stripList {c : Char} {l : List Char} (h : c ∈ stripList l) :
    c ∈ l := by
  rw [stripList, List.mem_reverse] at h
  have h2 := (List.dropWhile_sublist isPySpace).subset h
  rw [List.mem_reverse] at h2
  exact (List.dropWhile_sublist isPySpace).subset h2

-- Sanity checks against the simulator scenarios in `examples/simulate_vad_stt.py`.
example :
    (on_stt_final { defaultFilter with is_speaking := true } (some "okay")).2.1
      = "IGNORE" := by decide
example :
    (on_stt_final { defaultFilter with is_speaking := false } (some "yeah")).2.1
      = "PASS" := by decide
example :
    (on_stt_final { defaultFilter with is_speaking := true } (some "no stop")).2.1
      = "INTERRUPT" := by decide
example :
    (on_stt_final { defaultFilter with is_speaking := true }
      (some "yeah wait a second")).2.1 = "INTERRUPT" := by decide

example : _norm_tokens "uh-huh" = ["uh", "huh"] := by decide
example : _norm_tokens "'" = ["'"] := by decide
example : _norm_tokens "  Hello, WORLD 42 " = ["hello", "world"] := by decide

/-! ### Claim C1 -/

/-- C1 counterexample: the at-most-once property fails in one direction. After
the internal timeout has already resolved the episode (emitting a decision), a
subsequent `on_stt_final` is not a no-op: it emits a further callback
invocation and changes the state, because `on_stt_final` never checks the
`pending` flag. -/
theorem c1_counterexample :
    ((_on_vad_timeout_internal
        (on_vad_start { defaultFilter with is_speaking := true }).1).2 ≠ [])
  ∧ ((on_stt_final
        (_on_vad_timeout_internal
          (on_vad_start { defaultFilter with is_speaking := true }).1).1
        (some "yeah")).2.2 ≠ [])
  ∧ ((on_stt_final
        (_on_vad_timeout_internal
          (on_vad_start { defaultFilter with is_speaking := true }).1).1
        (some "yeah")).1
      ≠ (_on_vad_timeout_internal
          (on_vad_start { defaultFilter with is_speaking := true }).1).1) := by
  decide

/-- C1 (amended): once `on_stt_final` has resolved the episode, the timeout
firing afterwards is a no-op — no callback invocation and no state change —
because it checks the `pending` flag, which is then false (and, generally, the
timeout firing on any non-pending state emits nothing and only drops the timer
handle). The converse direction of the original claim does not hold:
`on_stt_final` always emits, even after the timeout already resolved the
episode. -/
theorem c1_amended_resolution (s : FilterState) (t : Option String) :
    _on_vad_timeout_internal (on_stt_final s t).1 = ((on_stt_final s t).1, [])
  ∧ _on_vad_timeout_internal { s with vad_pending := false }
      = ({ s with vad_pending := false, timer_armed := false }, []) := by
  constructor
  · rw [timeout_not_pending _ (by rw [on_stt_final_fst]),
      set_timer_false_eq _ (by rw [on_stt_final_fst])]
  · rw [timeout_not_pending _ rfl]

/-! ### Claim C2 -/

/-- C2 counterexample: with the agent silent, the command word "stop" yields
INTERRUPT, not PASS — silent mode does not pass all input through. -/
theorem c2_counterexample :
    defaultFilter.is_speaking = false
  ∧ (on_stt_final defaultFilter (some "stop")).2.1 = "INTERRUPT" := by
  decide

/-- C2 (amended): on both resolution paths, the decision is PASS exactly when
the speaking flag is false at resolution time AND no token of the transcript
is a command word; in particular PASS is never produced while speaking, but a
silent-mode command word still yields INTERRUPT. -/
theorem c2_amended_pass_iff (s : FilterState) (t : String) :
    ((on_stt_final s (some t)).2.1 = "PASS"
      ↔ (s.is_speaking = false
          ∧ ∀ w ∈ _norm_tokens (pyStrip t), s.command_words.contains w = false))
  ∧ (∃ e, (_on_vad_timeout_internal
        { s with stt_buffer := t, vad_pending := true }).2 = [e]
      ∧ (e.decision = "PASS"
          ↔ (s.is_speaking = false
              ∧ ∀ w ∈ _norm_tokens t, s.command_words.contains w = false))) := by
  constructor
  · simpa using on_stt_final_pass_iff s (some t)
  · simpa using timeout_pass_iff { s with stt_buffer := t, vad_pending := true } rfl

/-! ### Claim C3 -/

/-- C3: a command token anywhere in the transcript forces INTERRUPT on both
the final-transcript path and the timeout path, regardless of other tokens
and of the speaking flag, and the reason names the triggering word. -/
theorem c3_command_interrupt (s : FilterState) (text : String)
    (hcmd : ∃ w ∈ _norm_tokens (pyStrip text), s.command_words.contains w = true) :
    ((on_stt_final s (some text)).2.1 = "INTERRUPT"
      ∧ ∃ w, s.command_words.contains w = true
          ∧ (on_stt_final s (some text)).2.2
              = [⟨"INTERRUPT", "command_word:" ++ w, text⟩])
  ∧ (∃ w, s.command_words.contains w = true
      ∧ (_on_vad_timeout_internal
            { s with stt_buffer := text, vad_pending := true }).2
          = [⟨"INTERRUPT", "partial_command:" ++ w, text⟩]) := by
  have hsome : ((_norm_tokens (pyStrip text)).find?
      (fun x => s.command_words.contains x)).isSome = true :=
    List.find?_isSome.mpr hcmd
  obtain ⟨w, hw⟩ := Option.isSome_iff_exists.mp hsome
  have hpw : s.command_words.contains w = true := List.find?_some hw
  have hfin := on_stt_final_command s (some text) w hw
  refine ⟨⟨hfin.1, ⟨w, hpw, hfin.2⟩⟩, ⟨w, hpw, ?_⟩⟩
  have hw' : (_norm_tokens text).find?
      (fun x => s.command_words.contains x) = some w := by
    rw [← _norm_tokens_pyStrip]
    exact hw
  exact timeout_command { s with stt_buffer := text, vad_pending := true } w rfl hw'

/-- Witness for C3: "yeah wait a second" mixed with ignore words, while
speaking, is INTERRUPT on both paths. -/
theorem c3_witness :
    (((on_stt_final { defaultFilter with is_speaking := true }
          (some "yeah wait a second")).2.1 = "INTERRUPT"
      ∧ ∃ w, ({ defaultFilter with
            is_speaking := true } : FilterState).command_words.contains w = true
          ∧ (on_stt_final { defaultFilter with is_speaking := true }
                (some "yeah wait a second")).2.2
              = [⟨"INTERRUPT", "command_word:" ++ w, "yeah wait a second"⟩])
  ∧ (∃ w, ({ defaultFilter with
        is_speaking := true } : FilterState).command_words.contains w = true
      ∧ (_on_vad_timeout_internal
            { { defaultFilter with is_speaking := true } with
                stt_buffer := "yeah wait a second", vad_pending := true }).2
          = [⟨"INTERRUPT", "partial_command:" ++ w, "yeah wait a second"⟩])) :=
  c3_command_interrupt { defaultFilter with is_speaking := true }
    "yeah wait a second" (by decide)

/-! ### Claim C4 -/

/-- C4: on a pending episode, the timeout path emits exactly one decision and
it is the same decision `on_stt_final` would return for the same buffered text
and speaking value (the `reason` tags of the two paths differ). -/
theorem c4_paths_agree (s : FilterState) (hp : s.vad_pending = true) :
    ∃ e, (_on_vad_timeout_internal s).2 = [e]
      ∧ e.decision = (on_stt_final s (some s.stt_buffer)).2.1 := by
  have htok := _norm_tokens_pyStrip s.stt_buffer
  simp only [on_stt_final, _on_vad_timeout_internal, Option.getD_some, htok]
  rw [if_neg (by simp [hp])]
  by_cases hE : (_norm_tokens s.stt_buffer).isEmpty = true
  · rw [if_pos hE, if_pos hE]
    exact ⟨_, rfl, rfl⟩
  · rw [if_neg hE, if_neg hE]
    cases hF : (_norm_tokens s.stt_buffer).find?
        (fun t => s.command_words.contains t) with
    | some w => exact ⟨_, rfl, rfl⟩
    | none =>
      by_cases hS : s.is_speaking = true
      · rw [if_pos hS, if_pos hS]
        exact ⟨_, rfl, rfl⟩
      · rw [if_neg hS, if_neg hS]
        exact ⟨_, rfl, rfl⟩

/-- Witness for C4: pending episode with buffer "hello stop" while speaking. -/
theorem c4_witness :
    ∃ e, (_on_vad_timeout_internal
        { defaultFilter with
            vad_pending := true, is_speaking := true,
            stt_buffer := "hello stop" }).2 = [e]
      ∧ e.decision = (on_stt_final
          { defaultFilter with
              vad_pending := true, is_speaking := true,
              stt_buffer := "hello stop" } (some "hello stop")).2.1 :=
  c4_paths_agree
    { defaultFilter with
        vad_pending := true, is_speaking := true,
        stt_buffer := "hello stop" } rfl

/-! ### Claim C5 -/

/-- C5 counterexample: the input "'" contains no alphabetic character, yet its
token list is `["'"]`, not empty — the regex class also matches bare
apostrophe runs. -/
theorem c5_counterexample :
    (∀ c ∈ "'".toList, c.isAlpha = false) ∧ _norm_tokens "'" = ["'"] := by
  decide

/-- C5 (amended): tokenization lower-cases and trims the text and returns the
maximal runs of letters and apostrophes (punctuation, digits and whitespace
separate); the token list is guaranteed empty only for inputs containing
neither an alphabetic character nor an apostrophe (an apostrophe-only input
yields a nonempty token list). -/
theorem c5_amended_no_letter_no_apostrophe (s : String)
    (h : ∀ c ∈ s.toList, c.isAlpha = false ∧ c ≠ '\'') :
    _norm_tokens s = [] := by
  rw [_norm_tokens_eq]
  have hall : ∀ c ∈ stripList (s.toList.map Char.toLower), tokClass c = false := by
    intro c hc
    have hc2 := mem_of_mem_stripList hc
    obtain ⟨a, ha, rfl⟩ := List.mem_map.mp hc2
    obtain ⟨hA, hQ⟩ := h a ha
    rw [toLower_eq_of_not_alpha a hA]
    simp [tokClass, hA, hQ]
  rw [splitRuns_eq_nil tokClass _ hall]
  rfl

/-- Witness for C5: a digits-and-punctuation input tokenizes to nothing. -/
theorem c5_witness :
    (∀ c ∈ "12, 3!?".toList, c.isAlpha = false ∧ c ≠ '\'')
      ∧ _norm_tokens "12, 3!?" = [] :=
  ⟨by decide, c5_amended_no_letter_no_apostrophe "12, 3!?" (by decide)⟩

/-! ### Claim C6 -/

/-- C6 counterexample: after `on_stt_final("stop")` resolves an episode, the
transcript buffer holds "stop" — it is not cleared at resolution. -/
theorem c6_counterexample :
    (on_stt_final (on_vad_start defaultFilter).1 (some "stop")).1.stt_buffer
      = "stop" ∧ "stop" ≠ "" := by
  decide

/-- C6 (amended): the pending flag is cleared by all three of `on_stt_final`,
the timeout firing and `on_vad_cancel`; but only `on_vad_cancel` empties the
buffer — `on_stt_final` stores the trimmed final text there and the timeout
path leaves the buffer unchanged. -/
theorem c6_amended_state_after (s : FilterState) (t : Option String) :
    ((on_stt_final s t).1.vad_pending = false
      ∧ (on_stt_final s t).1.stt_buffer = pyStrip (t.getD ""))
  ∧ ((on_vad_cancel s).1.vad_pending = false
      ∧ (on_vad_cancel s).1.stt_buffer = "")
  ∧ ((_on_vad_timeout_internal s).1.vad_pending = false
      ∧ (_on_vad_timeout_internal s).1.stt_buffer = s.stt_buffer) := by
  refine ⟨⟨?_, ?_⟩, ⟨rfl, rfl⟩, ⟨?_, ?_⟩⟩
  · rw [on_stt_final_fst]
  · rw [on_stt_final_fst]
  · rw [timeout_fst]
  · rw [timeout_fst]

/-! ### Claim C7 -/

/-- C7 counterexample: `on_stt_partial("")` is not a no-op — it overwrites a
nonempty buffer with the empty string (only a `None` argument is a no-op). -/
theorem c7_counterexample :
    ( on_stt_partial
        ( on_stt_partial (on_vad_start defaultFilter).1 (some "yeah")).1
        (some "")).1
      ≠ ( on_stt_partial (on_vad_start defaultFilter).1 (some "yeah")).1 := by
  decide

/-- C7 (amended): `on_stt_partial` is a no-op only when the text is absent
(`None`); any provided text — including the empty string — overwrites the
buffer with the trimmed text; the pending flag, timer, and speaking flag are
unchanged, and no decision is emitted. -/
theorem c7_amended_partial_semantics (s : FilterState) (t : String) :
    on_stt_partial s none = (s, [])
  ∧ ( on_stt_partial s (some t)).1.stt_buffer = pyStrip t
  ∧ ( on_stt_partial s (some t)).1.vad_pending = s.vad_pending
  ∧ ( on_stt_partial s (some t)).1.timer_armed = s.timer_armed
  ∧ ( on_stt_partial s (some t)).1.is_speaking = s.is_speaking
  ∧ ( on_stt_partial s (some t)).2 = [] :=
  ⟨rfl, rfl, rfl, rfl, rfl, rfl⟩

/-! ### Claim C8 -/

/-- C8 (code bug): with the default word sets, `on_stt_final("uh-huh")` while
speaking returns INTERRUPT, not IGNORE. Although "uh-huh" is listed in the
default ignore set, tokenization splits on the hyphen, producing
`["uh", "huh"]`, and "huh" is not in the ignore set — so the hyphenated and
spaced entries of the default ignore list can never match any token. -/
theorem c8_uh_huh_bug :
    defaultFilter.ignore_words.contains "uh-huh" = true
  ∧ _norm_tokens "uh-huh" = ["uh", "huh"]
  ∧ defaultFilter.ignore_words.contains "huh" = false
  ∧ (on_stt_final { defaultFilter with is_speaking := true }
      (some "uh-huh")).2.1 = "INTERRUPT" := by
  decide

/-! ### Claim C9 -/

/-- C9: the callback's behaviour — including raising — can neither escape the
engine nor influence the resulting state or the returned decision (the run
functions are total and their result is the same for every callback
behaviour), and resolution has happened in the post-state: the pending flag
is cleared regardless of the callback outcome. -/
theorem c9_callback_isolated (cb cb' : Option CallbackBehavior)
    (s : FilterState) (t : Option String) :
    run_on_stt_final cb s t = run_on_stt_final cb' s t
  ∧ run_timeout cb s = run_timeout cb' s
  ∧ (run_on_stt_final cb s t).1.vad_pending = false
  ∧ (run_timeout cb s).vad_pending = false := by
  refine ⟨rfl, rfl, ?_, ?_⟩
  · show (on_stt_final s t).1.vad_pending = false
    rw [on_stt_final_fst]
  · show (_on_vad_timeout_internal s).1.vad_pending = false
    rw [timeout_fst]

/-! ### Claim C10 -/

/-- C10: `on_stt_final` always passes to the callback exactly the decision it
returns (together with the raw input text), and that decision is one of the
three strings IGNORE, INTERRUPT, PASS. -/
theorem c10_return_matches_emit (s : FilterState) (t : Option String) :
    (∃ r, (on_stt_final s t).2.2 = [⟨(on_stt_final s t).2.1, r, t.getD ""⟩])
  ∧ ((on_stt_final s t).2.1 = "IGNORE" ∨ (on_stt_final s t).2.1 = "INTERRUPT"
      ∨ (on_stt_final s t).2.1 = "PASS") :=
  ⟨on_stt_final_emit s t, on_stt_final_decision_cases s t⟩

end InterruptFilterModel
